import Mathlib

set_option maxHeartbeats 1000000
set_option maxRecDepth 4000

/-! Verification development for the terminalwire-bun client. The file gives a
shallow embedding of `src/security.ts` (path validation and the environment
allowlist), `src/resources.ts` (the resource dispatcher and its envelope
contract) and the two WebSocket `onmessage` handlers of the client transport,
and proves the stated properties about them. Paths are modelled POSIX-style
(the client is built for macOS and Linux only); JavaScript ambient state
(`process.env`, the working directory, the filesystem, stdio) is passed
explicitly as a `Ctx`/`World` value. -/

/-- A JavaScript runtime value, restricted to the shapes that flow through the
dispatcher: strings, numbers, booleans, `null`, `undefined`, and arrays of
strings (the only array shape the dispatcher produces). -/
inductive JSValue where
  | str (s : String)
  | num (n : Int)
  | boolV (b : Bool)
  | nullV
  | undefinedV
  | strArr (xs : List String)
deriving DecidableEq

/-- A thrown JavaScript value: an `Error` object carrying a message, or any
other thrown value. The dispatcher itself only ever throws `Error`s; the
second constructor exists because `handleResource` tests `instanceof Error`. -/
inductive Thrown where
  | errObj (message : String)
  | other (v : JSValue)
deriving DecidableEq

/-- JavaScript `String(v)` for the modelled value shapes (array `toString`
joins the elements with commas). -/
def jsToString : JSValue → String
  | .str s => s
  | .num n => toString n
  | .boolV true => "true"
  | .boolV false => "false"
  | .nullV => "null"
  | .undefinedV => "undefined"
  | .strArr xs => String.intercalate "," xs

/-- JavaScript truthiness for the modelled value shapes (arrays are objects,
hence truthy). -/
def truthy : JSValue → Bool
  | .str s => s != ""
  | .num n => n != 0
  | .boolV b => b
  | .nullV => false
  | .undefinedV => false
  | .strArr _ => true

/-- The parameter bag of a resource command (`Record<string, unknown>`). -/
def Params := List (String × JSValue)

/-- JavaScript property read `p.k` on the parameter bag: `undefined` when the
key is absent. -/
def getParam (p : Params) (k : String) : JSValue :=
  match p.find? (fun q => q.1 == k) with
  | some q => q.2
  | none => .undefinedV

/-- `process.env[n]`: the raw environment lookup. -/
def getEnv (env : List (String × String)) (n : String) : Option String :=
  match env.find? (fun q => q.1 == n) with
  | some q => some q.2
  | none => none

/-- JavaScript truthiness on an environment read: `undefined` and the empty
string are both falsy (this is what `!home` and `a || b` test in the source). -/
def truthyEnv : Option String → Option String
  | some s => if s == "" then none else some s
  | none => none

/-- The ambient process state read by `security.ts`: the environment and the
current working directory (used by `path.resolve`). -/
structure Ctx where
  env : List (String × String)
  cwd : String
deriving DecidableEq

/-- `s.startsWith(pre)`, computed on the underlying character lists (the
built-in string primitive is not kernel-reducible; this is extensionally the
same test). -/
def strStartsWith (s pre : String) : Bool := pre.data.isPrefixOf s.data

/-- Split a character list at `/` separators (the list-level engine of
`String.split` used by path normalization). -/
def splitSlashAux : List Char → List Char → List String
  | [], acc => [String.mk acc.reverse]
  | c :: cs, acc =>
    if c == '/' then String.mk acc.reverse :: splitSlashAux cs []
    else splitSlashAux cs (c :: acc)

/-- `s.split("/")`. -/
def splitSlash (s : String) : List String := splitSlashAux s.data []

/-- Join path segments with `/` separators. -/
def joinSlash : List String → String
  | [] => ""
  | [s] => s
  | s :: rest => s ++ "/" ++ joinSlash rest

/-- One pass of lexical path normalization: empty and `.` segments are
dropped, `..` pops the last collected segment (a no-op at the root), anything
else is appended. -/
def collapseSegs (segs : List String) : List String :=
  segs.foldl (fun acc seg =>
    if seg == "" || seg == "." then acc
    else if seg == ".." then acc.dropLast
    else acc ++ [seg]) []

/-- Node's POSIX `path.resolve(p)` relative to a working directory: make the
path absolute against `cwd`, then collapse `.`/`..`/empty segments. Purely
lexical, exactly as Node resolves (no symlink traversal). -/
def resolveAbs (cwd path : String) : String :=
  let full := if strStartsWith path "/" then path else cwd ++ "/" ++ path
  "/" ++ joinSlash (collapseSegs (splitSlash full))

/-- Node's POSIX `path.resolve(a, b)`: if `b` is absolute it wins, otherwise
it is resolved against `a` (itself resolved against the working directory). -/
def resolve2 (cwd a b : String) : String :=
  if strStartsWith b "/" then resolveAbs cwd b else resolveAbs cwd (a ++ "/" ++ b)

/-- `path.replace(/^~/, home)`: a purely textual replacement of one leading
tilde character by the HOME string (the regex is anchored, so at most the
first character is replaced, and no per-user home lookup happens). -/
def expandTilde (home path : String) : String :=
  match path.data with
  | '~' :: rest => home ++ String.mk rest
  | _ => path

/-- The truthy HOME value visible to `validatePath` (`process.env.HOME`
followed by the `!home` falsiness test). -/
def homeOf (ctx : Ctx) : Option String :=
  truthyEnv (getEnv ctx.env "HOME")

/-- The canonical absolute resolution `resolve(path.replace(/^~/, home))`
performed by `validatePath`. -/
def normalizedPath (ctx : Ctx) (home path : String) : String :=
  resolveAbs ctx.cwd (expandTilde home path)

/-- The allowed root directory: `resolve(process.env.TERMINALWIRE_HOME ||
resolve(home, ".terminalwire"))`. -/
def allowedRootOf (ctx : Ctx) (home : String) : String :=
  resolveAbs ctx.cwd (match truthyEnv (getEnv ctx.env "TERMINALWIRE_HOME") with
    | some t => t
    | none => resolve2 ctx.cwd home ".terminalwire")

/-- Descendant-or-equal containment as the source decides it on line 46 of
`security.ts`: equality with the root, or a string-prefix match on the root
plus the path separator (never a bare string-prefix match). -/
def withinRoot (root p : String) : Bool :=
  p == root || strStartsWith p (root ++ "/")

/-- `validatePath` from `src/security.ts`: require a truthy HOME, expand the
leading tilde, resolve to a canonical absolute path, require it to be inside
the home directory (bare string prefix, as in the source), then require it to
equal the allowed root or sit strictly below it. -/
def validatePath (ctx : Ctx) (path : String) : Except Thrown String :=
  match homeOf ctx with
  | none => .error (.errObj "HOME environment variable not set")
  | some home =>
    let normalized := normalizedPath ctx home path
    if !(strStartsWith normalized home) then
      .error (.errObj "Access denied: path must be within home directory")
    else
      let allowedDir := allowedRootOf ctx home
      if !(strStartsWith normalized (allowedDir ++ "/")) && !(normalized == allowedDir) then
        .error (.errObj ("Access denied: " ++ (path ++ " is not in allowlist")))
      else
        .ok normalized

/-- The fixed environment-variable allowlist of `src/security.ts`. -/
def ALLOWED_ENV_VARS : List String := ["HOME", "TERMINALWIRE_HOME", "TERMINALWIRE_URL"]

/-- `readEnvVar` from `src/security.ts`: reject names outside the fixed
allowlist, otherwise return the raw environment value (possibly absent). -/
def readEnvVar (ctx : Ctx) (name : String) : Except Thrown (Option String) :=
  if !(ALLOWED_ENV_VARS.contains name) then
    .error (.errObj ("Environment variable not allowed: " ++ name))
  else
    .ok (getEnv ctx.env name)

/-- The outcome of one dispatched resource action: a returned value, a thrown
value (caught by `handleResource`), a `process.exit` (which bypasses the
catch: the interrupt path of `readPassword`), or a promise that never settles
(reading a password from a stdin that closes without a newline). -/
inductive DOut where
  | ok (v : JSValue)
  | threw (e : Thrown)
  | exited (code : Nat)
  | pending
deriving DecidableEq

/-- A file on disk: its text content and its permission bits. -/
structure FileEntry where
  content : String
  mode : Nat
deriving DecidableEq

/-- The ambient world touched by the dispatcher: process environment and
working directory, platform, the filesystem (files with content and mode,
plus directories), the standard-output text, the pending stdin lines
(consumed by `stdin.read_line`), the raw stdin chunks (consumed by
`readPassword`), and the processes spawned by `browser.launch`. One output
buffer suffices because the source writes the stdout and stderr resources to
the same standard-output stream. -/
structure World where
  env : List (String × String)
  cwd : String
  platform : String
  files : List (String × FileEntry)
  dirs : List String
  stdoutBuf : String
  stdinLines : List String
  stdinChunks : List String
  spawned : List (String × String)
deriving DecidableEq

/-- The process state visible to `security.ts`. -/
def World.ctx (w : World) : Ctx := ⟨w.env, w.cwd⟩

/-- A world with its file table replaced (the shape every file-writing
action produces). -/
def withFiles (w : World) (fs : List (String × FileEntry)) : World := { w with files := fs }

/-- Association lookup in the modelled filesystem. -/
def fsFind (fs : List (String × FileEntry)) (p : String) : Option FileEntry :=
  match fs.find? (fun q => q.1 == p) with
  | some q => some q.2
  | none => none

/-- Insert-or-replace in the modelled filesystem. -/
def fsSet (fs : List (String × FileEntry)) (p : String) (d : FileEntry) :
    List (String × FileEntry) :=
  match fs with
  | [] => [(p, d)]
  | (q, e) :: t => if q == p then (p, d) :: t else (q, e) :: fsSet t p d

/-- Remove a path from the modelled filesystem. -/
def fsRemove (fs : List (String × FileEntry)) (p : String) : List (String × FileEntry) :=
  fs.filter (fun q => q.1 != p)

/-- `existsSync(p)`: true when a file or a directory sits at `p`. -/
def existsSync (w : World) (p : String) : Bool :=
  (fsFind w.files p).isSome || w.dirs.contains p

/-- `validatePath(p.path as string)`: the TypeScript cast is compile-time
only, so a non-string value reaches `path.replace`, which throws a
`TypeError` (one representative message stands for the runtime's wording). -/
def validatePathV (ctx : Ctx) (v : JSValue) : Except Thrown String :=
  match v with
  | .str s => validatePath ctx s
  | _ => .error (.errObj "TypeError: path.replace is not a function")

/-- `Bun.file(path).text()`: the file content, `EISDIR` on a directory,
`ENOENT` otherwise. -/
def bunFileText (w : World) (path : String) : Except Thrown String :=
  match fsFind w.files path with
  | some fe => .ok fe.content
  | none =>
    if w.dirs.contains path then
      .error (.errObj ("EISDIR: illegal operation on a directory, read " ++ path))
    else
      .error (.errObj ("ENOENT: no such file or directory, open " ++ path))

/-- `Bun.write(path, content)` with string content: creates or overwrites the
file (permission bits of an existing file are kept, a new file gets the 0o644
creation default); writing over an existing directory fails with `EISDIR`. -/
def bunWrite (w : World) (path content : String) : Except Thrown World :=
  if w.dirs.contains path then
    .error (.errObj ("EISDIR: illegal operation on a directory, open " ++ path))
  else
    let entry : FileEntry := ⟨content, ((fsFind w.files path).map FileEntry.mode).getD 420⟩
    .ok { w with files := fsSet w.files path entry }

/-- `fs.promises.chmod(path, mode)` for the value shapes the dispatcher can
pass: a non-negative number sets the bits of an existing file (directory bits
are not tracked, so a chmod on a directory is a no-op); negative numbers and
non-numbers are rejected as Node rejects them (Node's octal-string form is
never produced by a Terminalwire server and is not modelled). -/
def chmodW (w : World) (path : String) (mode : JSValue) : Except Thrown World :=
  match mode with
  | .num i =>
    if i < 0 then .error (.errObj "RangeError: mode must be a non-negative integer")
    else
      match fsFind w.files path with
      | some fe => .ok { w with files := fsSet w.files path ⟨fe.content, i.toNat⟩ }
      | none =>
        if w.dirs.contains path then .ok w
        else .error (.errObj ("ENOENT: no such file or directory, chmod " ++ path))
  | m => .error (.errObj ("TypeError: mode must be a number, received " ++ jsToString m))

/-- Character-level glob matching for `Bun.Glob`: `*` (and hence `**`)
matches any character run; only the wildcard forms a Terminalwire entitlement
can produce are modelled. -/
def globMatchAux : List Char → List Char → Bool
  | [], [] => true
  | [], _ :: _ => false
  | c :: ps, t =>
    if c == '*' then
      globMatchAux ps t || (match t with
        | [] => false
        | _ :: ts => globMatchAux (c :: ps) ts)
    else
      match t with
      | [] => false
      | d :: ts => c == d && globMatchAux ps ts
termination_by p s => (p.length, s.length)

/-- `new Bun.Glob(pattern).scan(".")` over the modelled filesystem. -/
def globMatch (pat s : String) : Bool := globMatchAux pat.data s.data

/-- The outcome of `readPassword`: a resolved password with the unconsumed
chunks, a process exit on Ctrl+C, or a promise that never settles because
stdin ended without a newline. -/
inductive PwOut where
  | done (password : String) (rest : List String)
  | ctrlc
  | pend
deriving DecidableEq

/-- The stdin data handler of `readPassword`: each chunk is compared whole
against Enter, Backspace and Ctrl+C (exactly as the source compares
`chunk.toString()`); anything else is appended to the buffered password. -/
def readPasswordLoop : List String → String → PwOut
  | [], _ => .pend
  | c :: rest, password =>
    if c == "\r" || c == "\n" then .done password rest
    else if c == "\x7F" || c == "\x08" then readPasswordLoop rest (password.dropRight 1)
    else if c == "\x03" then .ctrlc
    else readPasswordLoop rest (password ++ c)

/-- `stdout.print` / `stderr.print`: write the raw data to standard output; a
non-string makes `process.stdout.write` throw. -/
def stdoutPrintAction (p : Params) (w : World) : DOut × World :=
  match getParam p "data" with
  | .str s => (.ok .nullV, { w with stdoutBuf := w.stdoutBuf ++ s })
  | _ => (.threw (.errObj "TypeError: the data argument must be of type string"), w)

/-- `stdout.print_line` / `stderr.print_line`: `console.log` accepts any
value and appends a newline. -/
def printLineAction (p : Params) (w : World) : DOut × World :=
  (.ok .nullV, { w with stdoutBuf := w.stdoutBuf ++ jsToString (getParam p "data") ++ "\n" })

/-- `stdin.read_line`: the first pending line, or the empty string when the
input stream is exhausted. -/
def stdinReadLineAction (w : World) : DOut × World :=
  match w.stdinLines with
  | [] => (.ok (.str ""), w)
  | l :: rest => (.ok (.str l), { w with stdinLines := rest })

/-- `stdin.read_password`: run the chunk loop; Enter resolves the password
(and echoes a newline), Ctrl+C exits the process with code 1, end-of-stream
leaves the promise pending forever. -/
def stdinReadPasswordAction (w : World) : DOut × World :=
  match readPasswordLoop w.stdinChunks "" with
  | .done pw rest =>
    (.ok (.str pw), { w with stdinChunks := rest, stdoutBuf := w.stdoutBuf ++ "\n" })
  | .ctrlc => (.exited 1, w)
  | .pend => (.pending, w)

/-- `file.read`: validate, then read the whole file as text. -/
def fileReadAction (p : Params) (w : World) : DOut × World :=
  match validatePathV w.ctx (getParam p "path") with
  | .error e => (.threw e, w)
  | .ok np =>
    match bunFileText w np with
    | .error e => (.threw e, w)
    | .ok s => (.ok (.str s), w)

/-- `file.write`: validate, overwrite, then chmod only when the mode
parameter is truthy (`if (p.mode)` in the source, so a mode of `0` skips the
chmod); the result is the length of the written content. -/
def fileWriteAction (p : Params) (w : World) : DOut × World :=
  match validatePathV w.ctx (getParam p "path") with
  | .error e => (.threw e, w)
  | .ok writePath =>
    match getParam p "content" with
    | .str content =>
      match bunWrite w writePath content with
      | .error e => (.threw e, w)
      | .ok w1 =>
        if truthy (getParam p "mode") then
          match chmodW w1 writePath (getParam p "mode") with
          | .error e => (.threw e, w1)
          | .ok w2 => (.ok (.num (Int.ofNat content.length)), w2)
        else (.ok (.num (Int.ofNat content.length)), w1)
    | c => (.threw (.errObj ("TypeError: Bun.write expects a string, received " ++ jsToString c)), w)

/-- `file.append`: validate, read the existing content when the file exists
(else the empty string), write the concatenation (JavaScript `+` coerces a
non-string content to its string form), and return `content.length` with
JavaScript property semantics: numbers, booleans and arrays yield their
`length` property (`undefined` for the first two), `null` and `undefined`
make the property read throw after the write already happened. -/
def fileAppendAction (p : Params) (w : World) : DOut × World :=
  match validatePathV w.ctx (getParam p "path") with
  | .error e => (.threw e, w)
  | .ok appendPath =>
    match (if existsSync w appendPath then bunFileText w appendPath else .ok "") with
    | .error e => (.threw e, w)
    | .ok existing =>
      match bunWrite w appendPath (existing ++ jsToString (getParam p "content")) with
      | .error e => (.threw e, w)
      | .ok w1 =>
        match getParam p "content" with
        | .str s => (.ok (.num (Int.ofNat s.length)), w1)
        | .strArr xs => (.ok (.num (Int.ofNat xs.length)), w1)
        | .num _ => (.ok .undefinedV, w1)
        | .boolV _ => (.ok .undefinedV, w1)
        | .nullV => (.threw (.errObj "TypeError: Cannot read properties of null"), w1)
        | .undefinedV => (.threw (.errObj "TypeError: Cannot read properties of undefined"), w1)

/-- `file.delete`: validate, then unlink; `1` on success. -/
def fileDeleteAction (p : Params) (w : World) : DOut × World :=
  match validatePathV w.ctx (getParam p "path") with
  | .error e => (.threw e, w)
  | .ok np =>
    match fsFind w.files np with
    | some _ => (.ok (.num 1), { w with files := fsRemove w.files np })
    | none =>
      if w.dirs.contains np then
        (.threw (.errObj ("EISDIR: illegal operation on a directory, unlink " ++ np)), w)
      else (.threw (.errObj ("ENOENT: no such file or directory, unlink " ++ np)), w)

/-- `file.exist`: the whole case body sits in a try/catch returning `false`,
so a validation failure and a missing path are indistinguishable. The source
calls `validatePath` twice with the same argument; being pure, one call
models both. -/
def fileExistAction (p : Params) (w : World) : DOut × World :=
  match validatePathV w.ctx (getParam p "path") with
  | .error _ => (.ok (.boolV false), w)
  | .ok np => (.ok (.boolV (existsSync w np)), w)

/-- `file.change_mode`: validate, chmod unconditionally, return `0`. -/
def fileChangeModeAction (p : Params) (w : World) : DOut × World :=
  match validatePathV w.ctx (getParam p "path") with
  | .error e => (.threw e, w)
  | .ok np =>
    match chmodW w np (getParam p "mode") with
    | .error e => (.threw e, w)
    | .ok w1 => (.ok (.num 0), w1)

/-- `directory.list`: validate, then glob-scan the filesystem. -/
def directoryListAction (p : Params) (w : World) : DOut × World :=
  match validatePathV w.ctx (getParam p "path") with
  | .error e => (.threw e, w)
  | .ok np =>
    (.ok (.strArr ((w.files.map (fun q => q.1)).filter (fun f => globMatch np f))), w)

/-- `directory.create`: validate, `mkdir` recursively (idempotent on an
existing directory, `EEXIST` when a file occupies the path), and return the
singleton list of the created path. -/
def directoryCreateAction (p : Params) (w : World) : DOut × World :=
  match validatePathV w.ctx (getParam p "path") with
  | .error e => (.threw e, w)
  | .ok dirPath =>
    if (fsFind w.files dirPath).isSome then
      (.threw (.errObj ("EEXIST: file already exists, mkdir " ++ dirPath)), w)
    else if w.dirs.contains dirPath then
      (.ok (.strArr [dirPath]), w)
    else
      (.ok (.strArr [dirPath]), { w with dirs := dirPath :: w.dirs })

/-- `directory.exist`: same swallow-on-failure policy as `file.exist`. -/
def directoryExistAction (p : Params) (w : World) : DOut × World :=
  match validatePathV w.ctx (getParam p "path") with
  | .error _ => (.ok (.boolV false), w)
  | .ok np => (.ok (.boolV (existsSync w np)), w)

/-- `directory.delete`: validate, then `rmdir` of an empty directory;
`ENOTEMPTY` when anything sits strictly below it, `ENOTDIR` on a file,
`ENOENT` otherwise. -/
def directoryDeleteAction (p : Params) (w : World) : DOut × World :=
  match validatePathV w.ctx (getParam p "path") with
  | .error e => (.threw e, w)
  | .ok np =>
    if w.dirs.contains np then
      if w.files.any (fun q => strStartsWith q.1 (np ++ "/")) ||
         w.dirs.any (fun d => strStartsWith d (np ++ "/")) then
        (.threw (.errObj ("ENOTEMPTY: directory not empty, rmdir " ++ np)), w)
      else
        (.ok (.num 1), { w with dirs := w.dirs.filter (fun d => d != np) })
    else if (fsFind w.files np).isSome then
      (.threw (.errObj ("ENOTDIR: not a directory, rmdir " ++ np)), w)
    else
      (.threw (.errObj ("ENOENT: no such file or directory, rmdir " ++ np)), w)

/-- `browser.launch`: spawn the platform opener, detached; the URL is handed
to the OS without validation. -/
def browserLaunchAction (p : Params) (w : World) : DOut × World :=
  let openCmd := if w.platform == "darwin" then "open" else "xdg-open"
  match getParam p "url" with
  | .str u => (.ok .nullV, { w with spawned := w.spawned ++ [(openCmd, u)] })
  | v => (.threw (.errObj ("TypeError: Bun.spawn expects string arguments, received " ++ jsToString v)), w)

/-- `environment_variable.read`: the allowlisted read; a non-string name
fails the set-membership test, so the same access-denied error (with the
value's string form interpolated) is thrown. -/
def envReadAction (p : Params) (w : World) : DOut × World :=
  match getParam p "name" with
  | .str n =>
    match readEnvVar w.ctx n with
    | .error e => (.threw e, w)
    | .ok (some v) => (.ok (.str v), w)
    | .ok none => (.ok .undefinedV, w)
  | v => (.threw (.errObj ("Environment variable not allowed: " ++ jsToString v)), w)

/-- The switch body of the dispatcher, keyed on the `name.command` string
(fall-through pairs become disjunctions). -/
def dispatchOnKey (key : String) (p : Params) (w : World) : DOut × World :=
  if key == "stdout.print" || key == "stderr.print" then stdoutPrintAction p w
  else if key == "stdout.print_line" || key == "stderr.print_line" then printLineAction p w
  else if key == "stdin.read_line" then stdinReadLineAction w
  else if key == "stdin.read_password" then stdinReadPasswordAction w
  else if key == "file.read" then fileReadAction p w
  else if key == "file.write" then fileWriteAction p w
  else if key == "file.append" then fileAppendAction p w
  else if key == "file.delete" then fileDeleteAction p w
  else if key == "file.exist" then fileExistAction p w
  else if key == "file.change_mode" then fileChangeModeAction p w
  else if key == "directory.list" then directoryListAction p w
  else if key == "directory.create" then directoryCreateAction p w
  else if key == "directory.exist" then directoryExistAction p w
  else if key == "directory.delete" then directoryDeleteAction p w
  else if key == "browser.launch" then browserLaunchAction p w
  else if key == "environment_variable.read" then envReadAction p w
  else (.threw (.errObj ("Unknown resource command: " ++ key)), w)

/-- The resource dispatcher of `src/resources.ts`: build the
`${name}.${cmd}` key, then switch on it. -/
def dispatch (name cmd : String) (p : Params) (w : World) : DOut × World :=
  dispatchOnKey (name ++ "." ++ cmd) p w

/-- The resource response envelope of `src/resources.ts`. -/
structure ResourceResponse where
  event : String
  name : String
  status : String
  response : JSValue
deriving DecidableEq

/-- The observable outcome of `handleResource`: an envelope, or one of the
two ways a dispatch can fail to complete (process exit, a promise that never
settles). A thrown error is never an outcome: the catch converts it. -/
inductive HOut where
  | envelope (r : ResourceResponse)
  | exited (code : Nat)
  | pending
deriving DecidableEq

/-- `response ?? null`: msgpack cannot carry `undefined`. -/
def nullify : JSValue → JSValue
  | .undefinedV => .nullV
  | .nullV => .nullV
  | v => v

/-- `error instanceof Error ? error.message : String(error)`. -/
def thrownToResponse : Thrown → String
  | .errObj m => m
  | .other v => jsToString v

/-- JavaScript `String(e)` on a thrown value (template-literal interpolation
in the debug logs): `Error` objects print as `Error: message`. -/
def thrownDisplay : Thrown → String
  | .errObj m => "Error: " ++ m
  | .other v => jsToString v

/-- `handleResource` from `src/resources.ts`: dispatch inside try/catch, a
success envelope on a value (undefined collapsed to null), a failure
envelope carrying the error message on a throw. -/
def handleResource (name cmd : String) (p : Params) (w : World) : HOut × World :=
  match dispatch name cmd p w with
  | (.ok v, w') => (.envelope ⟨"resource", name, "success", nullify v⟩, w')
  | (.threw e, w') => (.envelope ⟨"resource", name, "failure", .str (thrownToResponse e)⟩, w')
  | (.exited c, w') => (.exited c, w')
  | (.pending, w') => (.pending, w')

/-- The 1 MiB inbound frame cap of the transport (`MAX_MESSAGE_SIZE`). -/
def MAX_MESSAGE_SIZE : Nat := 1024 * 1024

/-- An observable action of an `onmessage` handler: a `console.error`
diagnostic, a delivery to `onMessage`, or a close of the socket. Neither
handler contains a close call; the constructor exists so that this absence is
a provable statement. -/
inductive TAction (α : Type) where
  | logged (line : String)
  | delivered (msg : α)
  | closedConn
deriving DecidableEq

/-- The `[DEBUG] Received N bytes` log line, emitted only when debugging. -/
def debugRecvLog (α : Type) (debug : Bool) (n : Nat) : List (TAction α) :=
  if debug then [.logged ("[DEBUG] Received " ++ toString n ++ " bytes")] else []

/-- The `socket.onmessage` handler of the plain client variant: drop and log
oversized frames, otherwise decode and deliver. The decode sits in no
try/catch, so a decode error propagates out of the handler (the
`Except.error` outcome). The wire codec is a black box passed in as
`decode`; a handler invocation is pure and per-frame, so the treatment of one
frame cannot affect the next. -/
def onmessagePlain {α : Type} (decode : List Nat → Except Thrown α) (buffer : List Nat) :
    Except Thrown (List (TAction α)) :=
  if buffer.length > MAX_MESSAGE_SIZE then
    .ok [.logged "Message too large, ignoring"]
  else
    match decode buffer with
    | .ok msg => .ok [.delivered msg]
    | .error e => .error e

/-- The `socket.onmessage` handler of the debug client variant: a received
log when debugging, the same size cap, then decode and delivery inside a
try/catch whose handler logs (only when debugging) and swallows the error. -/
def onmessageDebug {α : Type} (debug : Bool) (decode : List Nat → Except Thrown α)
    (buffer : List Nat) : Except Thrown (List (TAction α)) :=
  if buffer.length > MAX_MESSAGE_SIZE then
    .ok (debugRecvLog α debug buffer.length ++ [.logged "Message too large, ignoring"])
  else
    match decode buffer with
    | .ok msg =>
      .ok (debugRecvLog α debug buffer.length ++
        (if debug then [TAction.logged "[DEBUG] Decoded"] else []) ++ [.delivered msg])
    | .error e =>
      .ok (debugRecvLog α debug buffer.length ++
        (if debug then [TAction.logged ("[DEBUG] Error handling message: " ++ thrownDisplay e)]
         else []))

/-- Specification shape of every error the dispatcher can throw: an `Error`
object with a nonempty message. -/
def goodThrown (e : Thrown) : Prop := ∃ m, e = .errObj m ∧ m ≠ ""

/-- Example context used by concrete witnesses: HOME is `/home/u`, the
allowed root is overridden to `/home/u/.x`. -/
def ctxW : Ctx := ⟨[("HOME", "/home/u"), ("TERMINALWIRE_HOME", "/home/u/.x")], "/home/u"⟩

/-- Example world used by concrete witnesses: HOME is `/home/u`, no override,
an empty filesystem. -/
def wW : World := ⟨[("HOME", "/home/u")], "/home/u", "linux", [], [], "", [], [], []⟩

/-- Example world for the mode-zero counterexample: one file below the
default allowed root, mode 0o644. -/
def wC9 : World :=
  ⟨[("HOME", "/h")], "/h", "linux", [("/h/.terminalwire/f", ⟨"old", 420⟩)], [], "", [], [], []⟩

/-- Helper: a string with a nonempty left part stays nonempty under append. -/
theorem appendNeEmpty (s t : String) (h : s ≠ "") : s ++ t ≠ "" := by
  cases s with
  | mk ds =>
    cases t with
    | mk dt =>
      intro hc
      have hd : ds ++ dt = ([] : List Char) := congrArg String.data hc
      rcases List.append_eq_nil.mp hd with ⟨h1, _⟩
      exact h (congrArg String.mk h1)

/-- Helper: the data of a string is a list-prefix of the data of any append
extending it on the right. -/
theorem dataPrefixAppend (s t : String) : s.data <+: (s ++ t).data := by
  cases s with
  | mk ds =>
    cases t with
    | mk dt =>
      exact ⟨dt, rfl⟩

/-- Claim C1: whenever the canonical absolute resolution of the input lies
outside the allowed root (not equal to it and not below `root ++ "/"`, which
in particular rejects sibling directories sharing the root as a bare string
prefix), `validatePath` fails with an access-denied error and returns no
path. -/
theorem validatePath_denies_outside_root (ctx : Ctx) (path home : String)
    (hh : homeOf ctx = some home)
    (hout : withinRoot (allowedRootOf ctx home) (normalizedPath ctx home path) = false) :
    ∃ msg, validatePath ctx path = .error (.errObj msg) ∧
      "Access denied".data <+: msg.data ∧
      ∀ np, validatePath ctx path ≠ .ok np := by
  unfold withinRoot at hout
  have hparts := Bool.or_eq_false_iff.mp hout
  unfold validatePath
  rw [hh]
  dsimp only
  cases hs : strStartsWith (normalizedPath ctx home path) home with
  | false =>
    rw [if_pos (by decide)]
    exact ⟨_, rfl, by decide, fun np h => Except.noConfusion h⟩
  | true =>
    rw [if_neg (by decide)]
    rw [if_pos (by rw [hparts.1, hparts.2]; rfl)]
    refine ⟨_, rfl, ?_, fun np h => Except.noConfusion h⟩
    have h1 : "Access denied".data <+: "Access denied: ".data := by decide
    exact h1.trans (dataPrefixAppend "Access denied: " (path ++ " is not in allowlist"))

/-- Claim C1 witness: with allowed root `/home/u/.x`, the sibling probe
`/home/u/.xx` (which shares the root as a bare string prefix) is denied, and
so is the traversal probe `../../etc/passwd`. -/
theorem validatePath_denies_outside_root_witness :
    homeOf ctxW = some "/home/u" ∧
    withinRoot (allowedRootOf ctxW "/home/u") (normalizedPath ctxW "/home/u" "/home/u/.xx") = false ∧
    (∃ msg, validatePath ctxW "/home/u/.xx" = .error (.errObj msg) ∧
      "Access denied".data <+: msg.data ∧
      ∀ np, validatePath ctxW "/home/u/.xx" ≠ .ok np) ∧
    (∃ msg, validatePath ctxW "../../etc/passwd" = .error (.errObj msg) ∧
      "Access denied".data <+: msg.data ∧
      ∀ np, validatePath ctxW "../../etc/passwd" ≠ .ok np) := by
  refine ⟨by decide, by decide, ?_, ?_⟩
  · exact validatePath_denies_outside_root ctxW "/home/u/.xx" "/home/u" (by decide) (by decide)
  · exact validatePath_denies_outside_root ctxW "../../etc/passwd" "/home/u" (by decide) (by decide)

/-- Claim C3: `readEnvVar` rejects every name outside the fixed allowlist with
an access-denied error, and for allowlisted names returns the current
environment value (or absent) without throwing. -/
theorem readEnvVar_allowlist (ctx : Ctx) (name : String) :
    (ALLOWED_ENV_VARS.contains name = false →
      readEnvVar ctx name = .error (.errObj ("Environment variable not allowed: " ++ name))) ∧
    (ALLOWED_ENV_VARS.contains name = true →
      readEnvVar ctx name = .ok (getEnv ctx.env name)) := by
  constructor <;> intro h <;> (unfold readEnvVar; rw [h]) <;> rfl

/-- Claim C3 witness: `PATH` is rejected, `HOME` is returned. -/
theorem readEnvVar_allowlist_witness :
    ALLOWED_ENV_VARS.contains "PATH" = false ∧
    readEnvVar ctxW "PATH" = .error (.errObj ("Environment variable not allowed: " ++ "PATH")) ∧
    ALLOWED_ENV_VARS.contains "HOME" = true ∧
    readEnvVar ctxW "HOME" = .ok (some "/home/u") := by
  refine ⟨by decide, (readEnvVar_allowlist ctxW "PATH").1 (by decide), by decide, ?_⟩
  rw [(readEnvVar_allowlist ctxW "HOME").2 (by decide)]
  rfl

/-- Claim C10: the home-shorthand expansion used by `validatePath` is purely
textual. A single leading `~` is replaced by the HOME string even when a
username follows it (`~alice/f` becomes HOME ++ "alice/f": no per-user home
lookup), only the first tilde of a leading run is replaced, and a path that
does not begin with `~` (a tilde elsewhere included) is left unchanged. -/
theorem expandTilde_textual (home rest p : String) :
    expandTilde home ("~" ++ rest) = home ++ rest ∧
    expandTilde home ("~~" ++ rest) = home ++ ("~" ++ rest) ∧
    (p.data.head? ≠ some '~' → expandTilde home p = p) ∧
    expandTilde "/home/u" "~alice/f" = "/home/u" ++ "alice/f" := by
  refine ⟨?_, ?_, ?_, by decide⟩
  · cases rest with | mk d => rfl
  · cases rest with | mk d => rfl
  · intro hne
    unfold expandTilde
    split
    · rename_i rest' heq
      rw [heq] at hne
      simp at hne
    · rfl

/-- Claim C10 witness: concrete expansions, including the unchanged interior
tilde. -/
theorem expandTilde_textual_witness :
    expandTilde "/h" ("~" ++ "abc") = "/h" ++ "abc" ∧
    ("x~y".data.head? ≠ some '~') ∧
    expandTilde "/h" "x~y" = "x~y" := by
  have h := expandTilde_textual "/h" "abc" "x~y"
  exact ⟨h.1, by decide, h.2.2.1 (by decide)⟩

/-- Helper: errors of `validatePath` are Error objects with nonempty
messages. -/
theorem validatePath_threw (ctx : Ctx) (s : String) (e : Thrown)
    (h : validatePath ctx s = .error e) : goodThrown e := by
  unfold validatePath at h
  split at h
  · injection h with h1
    exact ⟨_, h1.symm, by decide⟩
  · dsimp only at h
    split at h
    · injection h with h1
      exact ⟨_, h1.symm, by decide⟩
    · split at h
      · injection h with h1
        exact ⟨_, h1.symm, appendNeEmpty _ _ (by decide)⟩
      · exact Except.noConfusion h

/-- Helper: errors of `validatePathV` are Error objects with nonempty
messages. -/
theorem validatePathV_threw (ctx : Ctx) (v : JSValue) (e : Thrown)
    (h : validatePathV ctx v = .error e) : goodThrown e := by
  unfold validatePathV at h
  split at h
  · exact validatePath_threw _ _ _ h
  · injection h with h1
    exact ⟨_, h1.symm, by decide⟩

/-- Helper: errors of `readEnvVar` are Error objects with nonempty
messages. -/
theorem readEnvVar_threw (ctx : Ctx) (n : String) (e : Thrown)
    (h : readEnvVar ctx n = .error e) : goodThrown e := by
  unfold readEnvVar at h
  split at h
  · injection h with h1
    exact ⟨_, h1.symm, appendNeEmpty _ _ (by decide)⟩
  · exact Except.noConfusion h

/-- Helper: errors of `bunFileText` are Error objects with nonempty
messages. -/
theorem bunFileText_threw (w : World) (s : String) (e : Thrown)
    (h : bunFileText w s = .error e) : goodThrown e := by
  unfold bunFileText at h
  split at h
  · exact Except.noConfusion h
  · split at h <;> (injection h with h1; exact ⟨_, h1.symm, appendNeEmpty _ _ (by decide)⟩)

/-- Helper: errors of `bunWrite` are Error objects with nonempty messages. -/
theorem bunWrite_threw (w : World) (s c : String) (e : Thrown)
    (h : bunWrite w s c = .error e) : goodThrown e := by
  unfold bunWrite at h
  split at h
  · injection h with h1
    exact ⟨_, h1.symm, appendNeEmpty _ _ (by decide)⟩
  · exact Except.noConfusion h

/-- Helper: errors of `chmodW` are Error objects with nonempty messages. -/
theorem chmodW_threw (w : World) (s : String) (v : JSValue) (e : Thrown)
    (h : chmodW w s v = .error e) : goodThrown e := by
  unfold chmodW at h
  split at h
  · split at h
    · injection h with h1
      exact ⟨_, h1.symm, by decide⟩
    · split at h
      · exact Except.noConfusion h
      · split at h
        · exact Except.noConfusion h
        · injection h with h1
          exact ⟨_, h1.symm, appendNeEmpty _ _ (by decide)⟩
  · injection h with h1
    exact ⟨_, h1.symm, appendNeEmpty _ _ (by decide)⟩

/-- Helper: every throw of `stdout.print` has a nonempty message. -/
theorem stdoutPrintAction_threw (p : Params) (w : World) (e : Thrown) (w' : World)
    (h : stdoutPrintAction p w = (.threw e, w')) : goodThrown e := by
  unfold stdoutPrintAction at h
  repeat' split at h
  all_goals
    first
    | (injection h with h1 h2; exact DOut.noConfusion h1)
    | (injection h with h1 h2; injection h1 with h3; rw [← h3];
       first
       | exact ⟨_, rfl, by decide⟩
       | exact ⟨_, rfl, appendNeEmpty _ _ (by decide)⟩)

/-- Helper: `print_line` never throws. -/
theorem printLineAction_threw (p : Params) (w : World) (e : Thrown) (w' : World)
    (h : printLineAction p w = (.threw e, w')) : goodThrown e := by
  unfold printLineAction at h
  injection h with h1 h2
  exact DOut.noConfusion h1

/-- Helper: `stdin.read_line` never throws. -/
theorem stdinReadLineAction_threw (w : World) (e : Thrown) (w' : World)
    (h : stdinReadLineAction w = (.threw e, w')) : goodThrown e := by
  unfold stdinReadLineAction at h
  split at h <;> (injection h with h1 h2; exact DOut.noConfusion h1)

/-- Helper: `stdin.read_password` never throws (it resolves, exits the
process, or stays pending). -/
theorem stdinReadPasswordAction_threw (w : World) (e : Thrown) (w' : World)
    (h : stdinReadPasswordAction w = (.threw e, w')) : goodThrown e := by
  unfold stdinReadPasswordAction at h
  split at h <;> (injection h with h1 h2; exact DOut.noConfusion h1)

/-- Helper: every throw of `file.read` has a nonempty message. -/
theorem fileReadAction_threw (p : Params) (w : World) (e : Thrown) (w' : World)
    (h : fileReadAction p w = (.threw e, w')) : goodThrown e := by
  unfold fileReadAction at h
  repeat' split at h
  all_goals
    first
    | (injection h with h1 h2; exact DOut.noConfusion h1)
    | (injection h with h1 h2; injection h1 with h3; rw [← h3];
       first
       | exact validatePathV_threw _ _ _ (by assumption)
       | exact bunFileText_threw _ _ _ (by assumption)
       | exact ⟨_, rfl, by decide⟩
       | exact ⟨_, rfl, appendNeEmpty _ _ (by decide)⟩)

/-- Helper: every throw of `file.write` has a nonempty message. -/
theorem fileWriteAction_threw (p : Params) (w : World) (e : Thrown) (w' : World)
    (h : fileWriteAction p w = (.threw e, w')) : goodThrown e := by
  unfold fileWriteAction at h
  repeat' split at h
  all_goals
    first
    | (injection h with h1 h2; exact DOut.noConfusion h1)
    | (injection h with h1 h2; injection h1 with h3; rw [← h3];
       first
       | exact validatePathV_threw _ _ _ (by assumption)
       | exact bunWrite_threw _ _ _ _ (by assumption)
       | exact chmodW_threw _ _ _ _ (by assumption)
       | exact ⟨_, rfl, by decide⟩
       | exact ⟨_, rfl, appendNeEmpty _ _ (by decide)⟩)

/-- Helper: the existing-content read of `file.append` (a guarded
`Bun.file(..).text()`) only throws Error objects with nonempty messages. -/
theorem existingRead_threw (w : World) (s : String) (e : Thrown)
    (h : (if existsSync w s then bunFileText w s else Except.ok "") = .error e) :
    goodThrown e := by
  split at h
  · exact bunFileText_threw _ _ _ h
  · exact Except.noConfusion h

/-- Helper: every throw of `file.append` has a nonempty message. -/
theorem fileAppendAction_threw (p : Params) (w : World) (e : Thrown) (w' : World)
    (h : fileAppendAction p w = (.threw e, w')) : goodThrown e := by
  unfold fileAppendAction at h
  repeat' split at h
  all_goals
    first
    | (injection h with h1 h2; exact DOut.noConfusion h1)
    | (injection h with h1 h2; injection h1 with h3; rw [← h3];
       first
       | exact validatePathV_threw _ _ _ (by assumption)
       | exact existingRead_threw _ _ _ (by assumption)
       | exact bunWrite_threw _ _ _ _ (by assumption)
       | exact ⟨_, rfl, by decide⟩
       | exact ⟨_, rfl, appendNeEmpty _ _ (by decide)⟩)

/-- Helper: every throw of `file.delete` has a nonempty message. -/
theorem fileDeleteAction_threw (p : Params) (w : World) (e : Thrown) (w' : World)
    (h : fileDeleteAction p w = (.threw e, w')) : goodThrown e := by
  unfold fileDeleteAction at h
  repeat' split at h
  all_goals
    first
    | (injection h with h1 h2; exact DOut.noConfusion h1)
    | (injection h with h1 h2; injection h1 with h3; rw [← h3];
       first
       | exact validatePathV_threw _ _ _ (by assumption)
       | exact ⟨_, rfl, by decide⟩
       | exact ⟨_, rfl, appendNeEmpty _ _ (by decide)⟩)

/-- Helper: `file.exist` never throws. -/
theorem fileExistAction_threw (p : Params) (w : World) (e : Thrown) (w' : World)
    (h : fileExistAction p w = (.threw e, w')) : goodThrown e := by
  unfold fileExistAction at h
  split at h <;> (injection h with h1 h2; exact DOut.noConfusion h1)

/-- Helper: every throw of `file.change_mode` has a nonempty message. -/
theorem fileChangeModeAction_threw (p : Params) (w : World) (e : Thrown) (w' : World)
    (h : fileChangeModeAction p w = (.threw e, w')) : goodThrown e := by
  unfold fileChangeModeAction at h
  repeat' split at h
  all_goals
    first
    | (injection h with h1 h2; exact DOut.noConfusion h1)
    | (injection h with h1 h2; injection h1 with h3; rw [← h3];
       first
       | exact validatePathV_threw _ _ _ (by assumption)
       | exact chmodW_threw _ _ _ _ (by assumption)
       | exact ⟨_, rfl, by decide⟩
       | exact ⟨_, rfl, appendNeEmpty _ _ (by decide)⟩)

/-- Helper: every throw of `directory.list` has a nonempty message. -/
theorem directoryListAction_threw (p : Params) (w : World) (e : Thrown) (w' : World)
    (h : directoryListAction p w = (.threw e, w')) : goodThrown e := by
  unfold directoryListAction at h
  repeat' split at h
  all_goals
    first
    | (injection h with h1 h2; exact DOut.noConfusion h1)
    | (injection h with h1 h2; injection h1 with h3; rw [← h3];
       exact validatePathV_threw _ _ _ (by assumption))

/-- Helper: every throw of `directory.create` has a nonempty message. -/
theorem directoryCreateAction_threw (p : Params) (w : World) (e : Thrown) (w' : World)
    (h : directoryCreateAction p w = (.threw e, w')) : goodThrown e := by
  unfold directoryCreateAction at h
  repeat' split at h
  all_goals
    first
    | (injection h with h1 h2; exact DOut.noConfusion h1)
    | (injection h with h1 h2; injection h1 with h3; rw [← h3];
       first
       | exact validatePathV_threw _ _ _ (by assumption)
       | exact ⟨_, rfl, appendNeEmpty _ _ (by decide)⟩)

/-- Helper: `directory.exist` never throws. -/
theorem directoryExistAction_threw (p : Params) (w : World) (e : Thrown) (w' : World)
    (h : directoryExistAction p w = (.threw e, w')) : goodThrown e := by
  unfold directoryExistAction at h
  split at h <;> (injection h with h1 h2; exact DOut.noConfusion h1)

/-- Helper: every throw of `directory.delete` has a nonempty message. -/
theorem directoryDeleteAction_threw (p : Params) (w : World) (e : Thrown) (w' : World)
    (h : directoryDeleteAction p w = (.threw e, w')) : goodThrown e := by
  unfold directoryDeleteAction at h
  repeat' split at h
  all_goals
    first
    | (injection h with h1 h2; exact DOut.noConfusion h1)
    | (injection h with h1 h2; injection h1 with h3; rw [← h3];
       first
       | exact validatePathV_threw _ _ _ (by assumption)
       | exact ⟨_, rfl, appendNeEmpty _ _ (by decide)⟩)

/-- Helper: every throw of `browser.launch` has a nonempty message. -/
theorem browserLaunchAction_threw (p : Params) (w : World) (e : Thrown) (w' : World)
    (h : browserLaunchAction p w = (.threw e, w')) : goodThrown e := by
  unfold browserLaunchAction at h
  repeat' split at h
  all_goals
    first
    | (injection h with h1 h2; exact DOut.noConfusion h1)
    | (injection h with h1 h2; injection h1 with h3; rw [← h3];
       exact ⟨_, rfl, appendNeEmpty _ _ (by decide)⟩)

/-- Helper: every throw of `environment_variable.read` has a nonempty
message. -/
theorem envReadAction_threw (p : Params) (w : World) (e : Thrown) (w' : World)
    (h : envReadAction p w = (.threw e, w')) : goodThrown e := by
  unfold envReadAction at h
  repeat' split at h
  all_goals
    first
    | (injection h with h1 h2; exact DOut.noConfusion h1)
    | (injection h with h1 h2; injection h1 with h3; rw [← h3];
       first
       | exact readEnvVar_threw _ _ _ (by assumption)
       | exact ⟨_, rfl, appendNeEmpty _ _ (by decide)⟩)

/-- Helper: a dispatch result whose throws (if any) carry nonempty Error
messages. -/
def threwGood (r : DOut × World) : Prop :=
  ∀ e w', r = (.threw e, w') → goodThrown e

/-- Helper: `threwGood` distributes over a branch. -/
theorem threwGood_ite (c : Prop) [Decidable c] (a b : DOut × World)
    (ha : threwGood a) (hb : threwGood b) : threwGood (if c then a else b) := by
  by_cases hc : c
  · rw [if_pos hc]; exact ha
  · rw [if_neg hc]; exact hb

/-- Helper: every error thrown anywhere inside `dispatch` is an Error object
with a nonempty message. -/
theorem dispatch_threw_good (name cmd : String) (p : Params) (w : World) (e : Thrown) (w' : World)
    (h : dispatch name cmd p w = (.threw e, w')) : goodThrown e := by
  have hg : threwGood (dispatchOnKey (name ++ "." ++ cmd) p w) := by
    unfold dispatchOnKey
    refine threwGood_ite _ _ _ (fun e w' h => stdoutPrintAction_threw _ _ _ _ h) ?_
    refine threwGood_ite _ _ _ (fun e w' h => printLineAction_threw _ _ _ _ h) ?_
    refine threwGood_ite _ _ _ (fun e w' h => stdinReadLineAction_threw _ _ _ h) ?_
    refine threwGood_ite _ _ _ (fun e w' h => stdinReadPasswordAction_threw _ _ _ h) ?_
    refine threwGood_ite _ _ _ (fun e w' h => fileReadAction_threw _ _ _ _ h) ?_
    refine threwGood_ite _ _ _ (fun e w' h => fileWriteAction_threw _ _ _ _ h) ?_
    refine threwGood_ite _ _ _ (fun e w' h => fileAppendAction_threw _ _ _ _ h) ?_
    refine threwGood_ite _ _ _ (fun e w' h => fileDeleteAction_threw _ _ _ _ h) ?_
    refine threwGood_ite _ _ _ (fun e w' h => fileExistAction_threw _ _ _ _ h) ?_
    refine threwGood_ite _ _ _ (fun e w' h => fileChangeModeAction_threw _ _ _ _ h) ?_
    refine threwGood_ite _ _ _ (fun e w' h => directoryListAction_threw _ _ _ _ h) ?_
    refine threwGood_ite _ _ _ (fun e w' h => directoryCreateAction_threw _ _ _ _ h) ?_
    refine threwGood_ite _ _ _ (fun e w' h => directoryExistAction_threw _ _ _ _ h) ?_
    refine threwGood_ite _ _ _ (fun e w' h => directoryDeleteAction_threw _ _ _ _ h) ?_
    refine threwGood_ite _ _ _ (fun e w' h => browserLaunchAction_threw _ _ _ _ h) ?_
    refine threwGood_ite _ _ _ (fun e w' h => envReadAction_threw _ _ _ _ h) ?_
    intro e w' h
    injection h with h1 h2
    injection h1 with h3
    rw [← h3]
    exact ⟨_, rfl, appendNeEmpty _ _ (by decide)⟩
  exact hg e w' h

/-- Claim C2: `handleResource` never lets a thrown error escape. Every
completed dispatch yields an `{event, name, status, response}` envelope: a
returned value becomes a success envelope (undefined collapsed to null), and
a throw becomes a failure envelope whose response is the error's message
text, a nonempty string, for every name, command and parameter bag. -/
theorem handleResource_never_raises (name cmd : String) (p : Params) (w : World) :
    (∀ v w', dispatch name cmd p w = (.ok v, w') →
      handleResource name cmd p w = (.envelope ⟨"resource", name, "success", nullify v⟩, w')) ∧
    (∀ e w', dispatch name cmd p w = (.threw e, w') →
      handleResource name cmd p w =
        (.envelope ⟨"resource", name, "failure", .str (thrownToResponse e)⟩, w') ∧
      thrownToResponse e ≠ "") := by
  constructor
  · intro v w' h
    unfold handleResource
    rw [h]
  · intro e w' h
    obtain ⟨m, hm, hne⟩ := dispatch_threw_good name cmd p w e w' h
    constructor
    · unfold handleResource
      rw [h]
    · rw [hm]
      simpa [thrownToResponse] using hne

/-- Claim C2 witness: an unknown resource/command pair throws inside
dispatch and comes back as a failure envelope with a nonempty message. -/
theorem handleResource_never_raises_witness :
    dispatch "nope" "x" ([] : Params) wW =
      (.threw (.errObj ("Unknown resource command: " ++ ("nope" ++ "." ++ "x"))), wW) ∧
    handleResource "nope" "x" ([] : Params) wW =
      (.envelope ⟨"resource", "nope", "failure",
        .str ("Unknown resource command: " ++ ("nope" ++ "." ++ "x"))⟩, wW) ∧
    ("Unknown resource command: " ++ ("nope" ++ "." ++ "x") : String) ≠ "" := by
  have h1 : dispatch "nope" "x" ([] : Params) wW =
      (.threw (.errObj ("Unknown resource command: " ++ ("nope" ++ "." ++ "x"))), wW) := rfl
  have h2 := (handleResource_never_raises "nope" "x" ([] : Params) wW).2 _ _ h1
  exact ⟨h1, h2.1, h2.2⟩

/-- Helper: looking up a path right after setting it yields the new entry. -/
theorem fsFind_fsSet_self (fs : List (String × FileEntry)) (p : String) (d : FileEntry) :
    fsFind (fsSet fs p d) p = some d := by
  induction fs with
  | nil =>
    simp [fsSet, fsFind, List.find?]
  | cons q t ih =>
    obtain ⟨a, b⟩ := q
    unfold fsSet
    by_cases hq : (a == p) = true
    · rw [if_pos hq]
      simp [fsFind, List.find?]
    · rw [if_neg hq]
      unfold fsFind at ih ⊢
      simp only [List.find?]
      simp only [hq]
      exact ih

/-- Helper: prepending the empty string is the identity. -/
theorem emptyAppend (s : String) : "" ++ s = s := by
  cases s with | mk d => rfl

/-- Helper: key selection for `file.read`. -/
theorem dispatch_file_read (p : Params) (w : World) :
    dispatch "file" "read" p w = fileReadAction p w := rfl

/-- Helper: key selection for `file.write`. -/
theorem dispatch_file_write (p : Params) (w : World) :
    dispatch "file" "write" p w = fileWriteAction p w := rfl

/-- Helper: key selection for `file.append`. -/
theorem dispatch_file_append (p : Params) (w : World) :
    dispatch "file" "append" p w = fileAppendAction p w := rfl

/-- Helper: key selection for `file.exist`. -/
theorem dispatch_file_exist (p : Params) (w : World) :
    dispatch "file" "exist" p w = fileExistAction p w := rfl

/-- Helper: key selection for `directory.exist`. -/
theorem dispatch_directory_exist (p : Params) (w : World) :
    dispatch "directory" "exist" p w = directoryExistAction p w := rfl

/-- Claim C4: `file.exist` and `directory.exist` answer with a success
envelope carrying the boolean false both when the path is rejected by the
security gate and when it is a validated path with nothing on the filesystem,
so the response cannot distinguish a disallowed path from a missing one. -/
theorem exist_swallows_denial_and_missing (v : JSValue) (w : World) :
    ((∃ e, validatePathV w.ctx v = .error e) →
      handleResource "file" "exist" [("path", v)] w =
        (.envelope ⟨"resource", "file", "success", .boolV false⟩, w) ∧
      handleResource "directory" "exist" [("path", v)] w =
        (.envelope ⟨"resource", "directory", "success", .boolV false⟩, w)) ∧
    (∀ np, validatePathV w.ctx v = .ok np → existsSync w np = false →
      handleResource "file" "exist" [("path", v)] w =
        (.envelope ⟨"resource", "file", "success", .boolV false⟩, w) ∧
      handleResource "directory" "exist" [("path", v)] w =
        (.envelope ⟨"resource", "directory", "success", .boolV false⟩, w)) := by
  have hgp : getParam [("path", v)] "path" = v := rfl
  constructor
  · rintro ⟨e, he⟩
    constructor
    · unfold handleResource
      rw [dispatch_file_exist]
      unfold fileExistAction
      rw [hgp, he]
      rfl
    · unfold handleResource
      rw [dispatch_directory_exist]
      unfold directoryExistAction
      rw [hgp, he]
      rfl
  · intro np hok hex
    constructor
    · unfold handleResource
      rw [dispatch_file_exist]
      unfold fileExistAction
      rw [hgp, hok]
      dsimp only
      rw [hex]
      rfl
    · unfold handleResource
      rw [dispatch_directory_exist]
      unfold directoryExistAction
      rw [hgp, hok]
      dsimp only
      rw [hex]
      rfl

/-- Claim C4 witness: on a world with HOME `/home/u` and the default allowed
root, the disallowed `/etc/passwd` and the allowlisted-but-missing
`~/.terminalwire/nope` both produce a success envelope with `false`. -/
theorem exist_swallows_denial_and_missing_witness :
    validatePathV wW.ctx (.str "/etc/passwd") =
      .error (.errObj "Access denied: path must be within home directory") ∧
    handleResource "file" "exist" [("path", .str "/etc/passwd")] wW =
      (.envelope ⟨"resource", "file", "success", .boolV false⟩, wW) ∧
    handleResource "directory" "exist" [("path", .str "/etc/passwd")] wW =
      (.envelope ⟨"resource", "directory", "success", .boolV false⟩, wW) ∧
    validatePathV wW.ctx (.str "~/.terminalwire/nope") = .ok "/home/u/.terminalwire/nope" ∧
    existsSync wW "/home/u/.terminalwire/nope" = false ∧
    handleResource "file" "exist" [("path", .str "~/.terminalwire/nope")] wW =
      (.envelope ⟨"resource", "file", "success", .boolV false⟩, wW) ∧
    handleResource "directory" "exist" [("path", .str "~/.terminalwire/nope")] wW =
      (.envelope ⟨"resource", "directory", "success", .boolV false⟩, wW) := by
  have h1 := (exist_swallows_denial_and_missing (.str "/etc/passwd") wW).1 ⟨_, rfl⟩
  have h2 := (exist_swallows_denial_and_missing (.str "~/.terminalwire/nope") wW).2
    "/home/u/.terminalwire/nope" rfl rfl
  exact ⟨rfl, h1.1, h1.2, rfl, rfl, h2.1, h2.2⟩

/-- Helper: a Bool-conditioned branch on a true condition. -/
theorem iteTrueBool {α : Sort _} (a b : α) : (if (true = true) then a else b) = a := rfl

/-- Helper: a Bool-conditioned branch on a false condition. -/
theorem iteFalseBool {α : Sort _} (a b : α) : (if (false = true) then a else b) = b := rfl

/-- Helper: the structure update of `bunWrite` in `withFiles` form. -/
theorem bunWrite_ok (w : World) (path content : String)
    (hd : w.dirs.contains path = false) :
    bunWrite w path content = .ok (withFiles w (fsSet w.files path
      (FileEntry.mk content (((fsFind w.files path).map FileEntry.mode).getD 420)))) := by
  unfold bunWrite
  rw [hd, iteFalseBool]
  rfl

/-- Helper: the dispatch result of a validated `file.write` without a mode
parameter: overwrite keeping the old bits (creation default for a new file),
return the content length. -/
theorem fileWrite_noMode (w : World) (path content np : String)
    (hv : validatePath w.ctx path = .ok np) (hd : w.dirs.contains np = false) :
    dispatch "file" "write" [("path", .str path), ("content", .str content)] w =
      (.ok (.num (Int.ofNat content.length)),
        withFiles w (fsSet w.files np
          (FileEntry.mk content (((fsFind w.files np).map FileEntry.mode).getD 420)))) := by
  have hgp : getParam [("path", JSValue.str path), ("content", JSValue.str content)] "path" =
      JSValue.str path := rfl
  have hgc : getParam [("path", JSValue.str path), ("content", JSValue.str content)] "content" =
      JSValue.str content := rfl
  have hgm : getParam [("path", JSValue.str path), ("content", JSValue.str content)] "mode" =
      JSValue.undefinedV := rfl
  rw [dispatch_file_write]
  unfold fileWriteAction
  rw [hgp]
  simp only [validatePathV]
  rw [hv]
  dsimp only
  rw [hgc]
  dsimp only
  rw [bunWrite_ok w np content hd]
  dsimp only
  rw [hgm]
  dsimp only [truthy]
  rw [iteFalseBool]

/-- Helper: the dispatch result of a validated `file.write` with a truthy
numeric mode: overwrite, then chmod to exactly that mode. -/
theorem fileWrite_withMode (w : World) (path content np : String) (m : Nat) (hm : m ≠ 0)
    (hv : validatePath w.ctx path = .ok np) (hd : w.dirs.contains np = false) :
    dispatch "file" "write"
      [("path", .str path), ("content", .str content), ("mode", .num (m : Int))] w =
      (.ok (.num (Int.ofNat content.length)),
        withFiles w (fsSet (fsSet w.files np
          (FileEntry.mk content (((fsFind w.files np).map FileEntry.mode).getD 420))) np
          (FileEntry.mk content m))) := by
  have hgp : getParam [("path", JSValue.str path), ("content", JSValue.str content),
      ("mode", JSValue.num (m : Int))] "path" = JSValue.str path := rfl
  have hgc : getParam [("path", JSValue.str path), ("content", JSValue.str content),
      ("mode", JSValue.num (m : Int))] "content" = JSValue.str content := rfl
  have hgm : getParam [("path", JSValue.str path), ("content", JSValue.str content),
      ("mode", JSValue.num (m : Int))] "mode" = JSValue.num (m : Int) := rfl
  have htr : ((m : Int) != 0) = true := by
    simp only [bne_iff_ne, ne_eq]
    omega
  have hchm : chmodW (withFiles w (fsSet w.files np
      (FileEntry.mk content (((fsFind w.files np).map FileEntry.mode).getD 420)))) np
      (JSValue.num (m : Int)) =
      .ok (withFiles w (fsSet (fsSet w.files np
        (FileEntry.mk content (((fsFind w.files np).map FileEntry.mode).getD 420))) np
        (FileEntry.mk content m))) := by
    unfold chmodW
    dsimp only
    rw [if_neg (show ¬((m : Int) < 0) by omega)]
    rw [show (withFiles w (fsSet w.files np
      (FileEntry.mk content (((fsFind w.files np).map FileEntry.mode).getD 420)))).files =
      fsSet w.files np
        (FileEntry.mk content (((fsFind w.files np).map FileEntry.mode).getD 420)) from rfl]
    rw [fsFind_fsSet_self]
    dsimp only
    rw [show ((m : Int)).toNat = m from rfl]
    rfl
  rw [dispatch_file_write]
  unfold fileWriteAction
  rw [hgp]
  simp only [validatePathV]
  rw [hv]
  dsimp only
  rw [hgc]
  dsimp only
  rw [bunWrite_ok w np content hd]
  dsimp only
  rw [hgm]
  dsimp only [truthy]
  rw [htr, iteTrueBool, hchm]

/-- Helper: the dispatch result of a validated `file.write` with mode `0`:
the mode parameter is falsy, so no chmod happens. -/
theorem fileWrite_modeZero (w : World) (path content np : String)
    (hv : validatePath w.ctx path = .ok np) (hd : w.dirs.contains np = false) :
    dispatch "file" "write"
      [("path", .str path), ("content", .str content), ("mode", .num 0)] w =
      (.ok (.num (Int.ofNat content.length)),
        withFiles w (fsSet w.files np
          (FileEntry.mk content (((fsFind w.files np).map FileEntry.mode).getD 420)))) := by
  have hgp : getParam [("path", JSValue.str path), ("content", JSValue.str content),
      ("mode", JSValue.num 0)] "path" = JSValue.str path := rfl
  have hgc : getParam [("path", JSValue.str path), ("content", JSValue.str content),
      ("mode", JSValue.num 0)] "content" = JSValue.str content := rfl
  have hgm : getParam [("path", JSValue.str path), ("content", JSValue.str content),
      ("mode", JSValue.num 0)] "mode" = JSValue.num 0 := rfl
  have htr : truthy (JSValue.num 0) = false := rfl
  rw [dispatch_file_write]
  unfold fileWriteAction
  rw [hgp]
  simp only [validatePathV]
  rw [hv]
  dsimp only
  rw [hgc]
  dsimp only
  rw [bunWrite_ok w np content hd]
  dsimp only
  rw [hgm, htr, iteFalseBool]

/-- Helper: the dispatch result of a validated `file.read` on an existing
file: the stored content. -/
theorem fileRead_hit (w : World) (path np : String) (fe : FileEntry)
    (hv : validatePath w.ctx path = .ok np)
    (hf : fsFind w.files np = some fe) :
    dispatch "file" "read" [("path", .str path)] w = (.ok (.str fe.content), w) := by
  have hgp : getParam [("path", JSValue.str path)] "path" = JSValue.str path := rfl
  have hbt : bunFileText w np = .ok fe.content := by
    unfold bunFileText
    rw [hf]
  rw [dispatch_file_read]
  unfold fileReadAction
  rw [hgp]
  simp only [validatePathV]
  rw [hv]
  dsimp only
  rw [hbt]

/-- Helper: the dispatch result of a validated `file.append` onto an existing
file: the concatenation is written with no separator, the old bits are kept,
and the result is the length of the appended content only. -/
theorem fileAppend_hit (w : World) (path B np : String) (fe : FileEntry)
    (hv : validatePath w.ctx path = .ok np) (hd : w.dirs.contains np = false)
    (hf : fsFind w.files np = some fe) :
    dispatch "file" "append" [("path", .str path), ("content", .str B)] w =
      (.ok (.num (Int.ofNat B.length)),
        withFiles w (fsSet w.files np (FileEntry.mk (fe.content ++ B) fe.mode))) := by
  have hgp : getParam [("path", JSValue.str path), ("content", JSValue.str B)] "path" =
      JSValue.str path := rfl
  have hgc : getParam [("path", JSValue.str path), ("content", JSValue.str B)] "content" =
      JSValue.str B := rfl
  have hex : existsSync w np = true := by
    unfold existsSync
    rw [hf]
    rfl
  have hbt : bunFileText w np = .ok fe.content := by
    unfold bunFileText
    rw [hf]
  have hjs : jsToString (JSValue.str B) = B := rfl
  have hw : bunWrite w np (fe.content ++ B) = .ok (withFiles w (fsSet w.files np
      (FileEntry.mk (fe.content ++ B) fe.mode))) := by
    rw [bunWrite_ok w np (fe.content ++ B) hd, hf]
    rfl
  rw [dispatch_file_append]
  unfold fileAppendAction
  rw [hgp]
  simp only [validatePathV]
  rw [hv]
  dsimp only
  rw [hgc, hjs, hex, iteTrueBool, hbt]
  dsimp only
  rw [hw]

/-- Helper: the dispatch result of a validated `file.append` when nothing
sits at the path: the existing content is treated as empty, so the appended
content alone is written (with the creation default bits). -/
theorem fileAppend_missing (w : World) (path B np : String)
    (hv : validatePath w.ctx path = .ok np) (hd : w.dirs.contains np = false)
    (hf : fsFind w.files np = none) :
    dispatch "file" "append" [("path", .str path), ("content", .str B)] w =
      (.ok (.num (Int.ofNat B.length)),
        withFiles w (fsSet w.files np (FileEntry.mk B 420))) := by
  have hgp : getParam [("path", JSValue.str path), ("content", JSValue.str B)] "path" =
      JSValue.str path := rfl
  have hgc : getParam [("path", JSValue.str path), ("content", JSValue.str B)] "content" =
      JSValue.str B := rfl
  have hex : existsSync w np = false := by
    unfold existsSync
    rw [hf, hd]
    rfl
  have hjs : jsToString (JSValue.str B) = B := rfl
  have hw : bunWrite w np ("" ++ B) = .ok (withFiles w (fsSet w.files np
      (FileEntry.mk B 420))) := by
    rw [emptyAppend]
    rw [bunWrite_ok w np B hd, hf]
    rfl
  rw [dispatch_file_append]
  unfold fileAppendAction
  rw [hgp]
  simp only [validatePathV]
  rw [hv]
  dsimp only
  rw [hgc, hjs, hex, iteFalseBool]
  dsimp only
  rw [hw]

/-- Claim C7: on any allowlisted path (with no directory occupying its
resolved location), `file.write` with content C answers with a success
envelope carrying `C.length`, and a following `file.read` of the same path
answers with exactly C. -/
theorem file_write_read_roundtrip (w : World) (path content np : String)
    (hv : validatePath w.ctx path = .ok np)
    (hd : w.dirs.contains np = false) :
    ∃ w1,
      handleResource "file" "write" [("path", .str path), ("content", .str content)] w =
        (.envelope ⟨"resource", "file", "success", .num (Int.ofNat content.length)⟩, w1) ∧
      handleResource "file" "read" [("path", .str path)] w1 =
        (.envelope ⟨"resource", "file", "success", .str content⟩, w1) := by
  refine ⟨withFiles w (fsSet w.files np
    (FileEntry.mk content (((fsFind w.files np).map FileEntry.mode).getD 420))), ?_, ?_⟩
  · unfold handleResource
    rw [fileWrite_noMode w path content np hv hd]
    rfl
  · unfold handleResource
    rw [fileRead_hit (withFiles w (fsSet w.files np
      (FileEntry.mk content (((fsFind w.files np).map FileEntry.mode).getD 420)))) path np
      (FileEntry.mk content (((fsFind w.files np).map FileEntry.mode).getD 420)) hv
      (fsFind_fsSet_self _ _ _)]
    rfl

/-- Claim C7 witness: the spec scenario itself. With HOME `/home/u` and the
default allowed root, writing "hi" to `~/.terminalwire/t.txt` answers
`{event: resource, name: file, status: success, response: 2}`, and the
following read answers "hi". -/
theorem file_write_read_roundtrip_witness :
    validatePath wW.ctx "~/.terminalwire/t.txt" = .ok "/home/u/.terminalwire/t.txt" ∧
    wW.dirs.contains "/home/u/.terminalwire/t.txt" = false ∧
    (∃ w1,
      handleResource "file" "write"
        [("path", .str "~/.terminalwire/t.txt"), ("content", .str "hi")] wW =
        (.envelope ⟨"resource", "file", "success", .num 2⟩, w1) ∧
      handleResource "file" "read" [("path", .str "~/.terminalwire/t.txt")] w1 =
        (.envelope ⟨"resource", "file", "success", .str "hi"⟩, w1)) := by
  refine ⟨rfl, rfl, ?_⟩
  exact file_write_read_roundtrip wW "~/.terminalwire/t.txt" "hi" "/home/u/.terminalwire/t.txt"
    rfl rfl

/-- Claim C8: write A, append B, read gives exactly `A ++ B` with no
separator; appending to a missing file treats the existing content as empty;
and the append envelope carries the length of B alone (not the total). -/
theorem file_append_concats (w : World) (path A B np : String)
    (hv : validatePath w.ctx path = .ok np)
    (hd : w.dirs.contains np = false) :
    (∃ w1 w2,
      handleResource "file" "write" [("path", .str path), ("content", .str A)] w =
        (.envelope ⟨"resource", "file", "success", .num (Int.ofNat A.length)⟩, w1) ∧
      handleResource "file" "append" [("path", .str path), ("content", .str B)] w1 =
        (.envelope ⟨"resource", "file", "success", .num (Int.ofNat B.length)⟩, w2) ∧
      handleResource "file" "read" [("path", .str path)] w2 =
        (.envelope ⟨"resource", "file", "success", .str (A ++ B)⟩, w2)) ∧
    (fsFind w.files np = none →
      ∃ w3,
        handleResource "file" "append" [("path", .str path), ("content", .str B)] w =
          (.envelope ⟨"resource", "file", "success", .num (Int.ofNat B.length)⟩, w3) ∧
        fsFind w3.files np = some (FileEntry.mk B 420)) := by
  constructor
  · refine ⟨withFiles w (fsSet w.files np
        (FileEntry.mk A (((fsFind w.files np).map FileEntry.mode).getD 420))),
      withFiles (withFiles w (fsSet w.files np
        (FileEntry.mk A (((fsFind w.files np).map FileEntry.mode).getD 420))))
        (fsSet (fsSet w.files np
          (FileEntry.mk A (((fsFind w.files np).map FileEntry.mode).getD 420))) np
          (FileEntry.mk (A ++ B) (((fsFind w.files np).map FileEntry.mode).getD 420))),
      ?_, ?_, ?_⟩
    · unfold handleResource
      rw [fileWrite_noMode w path A np hv hd]
      rfl
    · unfold handleResource
      rw [fileAppend_hit (withFiles w (fsSet w.files np
        (FileEntry.mk A (((fsFind w.files np).map FileEntry.mode).getD 420)))) path B np
        (FileEntry.mk A (((fsFind w.files np).map FileEntry.mode).getD 420)) hv hd
        (fsFind_fsSet_self _ _ _)]
      rfl
    · unfold handleResource
      rw [fileRead_hit (withFiles (withFiles w (fsSet w.files np
          (FileEntry.mk A (((fsFind w.files np).map FileEntry.mode).getD 420))))
          (fsSet (fsSet w.files np
            (FileEntry.mk A (((fsFind w.files np).map FileEntry.mode).getD 420))) np
            (FileEntry.mk (A ++ B) (((fsFind w.files np).map FileEntry.mode).getD 420))))
        path np
        (FileEntry.mk (A ++ B) (((fsFind w.files np).map FileEntry.mode).getD 420)) hv
        (fsFind_fsSet_self _ _ _)]
      rfl
  · intro hmiss
    refine ⟨withFiles w (fsSet w.files np (FileEntry.mk B 420)), ?_, ?_⟩
    · unfold handleResource
      rw [fileAppend_missing w path B np hv hd hmiss]
      rfl
    · exact fsFind_fsSet_self _ _ _

/-- Claim C8 witness: write "A", append "B", read "AB"; and appending "B" to
a missing file leaves exactly "B" on disk. -/
theorem file_append_concats_witness :
    validatePath wW.ctx "~/.terminalwire/a.txt" = .ok "/home/u/.terminalwire/a.txt" ∧
    wW.dirs.contains "/home/u/.terminalwire/a.txt" = false ∧
    fsFind wW.files "/home/u/.terminalwire/a.txt" = none ∧
    (∃ w1 w2,
      handleResource "file" "write"
        [("path", .str "~/.terminalwire/a.txt"), ("content", .str "A")] wW =
        (.envelope ⟨"resource", "file", "success", .num 1⟩, w1) ∧
      handleResource "file" "append"
        [("path", .str "~/.terminalwire/a.txt"), ("content", .str "B")] w1 =
        (.envelope ⟨"resource", "file", "success", .num 1⟩, w2) ∧
      handleResource "file" "read" [("path", .str "~/.terminalwire/a.txt")] w2 =
        (.envelope ⟨"resource", "file", "success", .str "AB"⟩, w2)) ∧
    (∃ w3,
      handleResource "file" "append"
        [("path", .str "~/.terminalwire/a.txt"), ("content", .str "B")] wW =
        (.envelope ⟨"resource", "file", "success", .num 1⟩, w3) ∧
      fsFind w3.files "/home/u/.terminalwire/a.txt" = some (FileEntry.mk "B" 420)) := by
  have h := file_append_concats wW "~/.terminalwire/a.txt" "A" "B" "/home/u/.terminalwire/a.txt"
    rfl rfl
  exact ⟨rfl, rfl, rfl, h.1, h.2 rfl⟩

/-- Claim C9 (amended): with a truthy (nonzero) numeric mode parameter,
`file.write` sets the file's permission bits to exactly that mode after
writing; with the mode parameter absent — or equal to 0, which is falsy in
the source's `if (p.mode)` test and therefore skips the chmod — the bits are
left as the write leaves them (the prior bits of an existing file, the
creation default for a new one). -/
theorem file_write_mode_semantics (w : World) (path content np : String) (m : Nat)
    (hv : validatePath w.ctx path = .ok np)
    (hd : w.dirs.contains np = false) :
    (m ≠ 0 →
      ∃ w1,
        handleResource "file" "write"
          [("path", .str path), ("content", .str content), ("mode", .num (m : Int))] w =
          (.envelope ⟨"resource", "file", "success", .num (Int.ofNat content.length)⟩, w1) ∧
        fsFind w1.files np = some (FileEntry.mk content m)) ∧
    (∃ w0,
      handleResource "file" "write"
        [("path", .str path), ("content", .str content), ("mode", .num 0)] w =
        (.envelope ⟨"resource", "file", "success", .num (Int.ofNat content.length)⟩, w0) ∧
      fsFind w0.files np =
        some (FileEntry.mk content (((fsFind w.files np).map FileEntry.mode).getD 420))) ∧
    (∃ w2,
      handleResource "file" "write" [("path", .str path), ("content", .str content)] w =
        (.envelope ⟨"resource", "file", "success", .num (Int.ofNat content.length)⟩, w2) ∧
      fsFind w2.files np =
        some (FileEntry.mk content (((fsFind w.files np).map FileEntry.mode).getD 420))) := by
  refine ⟨?_, ?_, ?_⟩
  · intro hm
    refine ⟨withFiles w (fsSet (fsSet w.files np
        (FileEntry.mk content (((fsFind w.files np).map FileEntry.mode).getD 420))) np
        (FileEntry.mk content m)), ?_, ?_⟩
    · unfold handleResource
      rw [fileWrite_withMode w path content np m hm hv hd]
      rfl
    · exact fsFind_fsSet_self _ _ _
  · refine ⟨withFiles w (fsSet w.files np
      (FileEntry.mk content (((fsFind w.files np).map FileEntry.mode).getD 420))), ?_, ?_⟩
    · unfold handleResource
      rw [fileWrite_modeZero w path content np hv hd]
      rfl
    · exact fsFind_fsSet_self _ _ _
  · refine ⟨withFiles w (fsSet w.files np
      (FileEntry.mk content (((fsFind w.files np).map FileEntry.mode).getD 420))), ?_, ?_⟩
    · unfold handleResource
      rw [fileWrite_noMode w path content np hv hd]
      rfl
    · exact fsFind_fsSet_self _ _ _

/-- Claim C9 counterexample: the claim as stated fails at mode 0. On a world
whose file `/h/.terminalwire/f` has bits 0o644 (420), a `file.write` carrying
`mode: 0` succeeds but leaves the bits at 420 — the `if (p.mode)` truthiness
test skips the chmod, so the bits are not set to the given mode 0. -/
theorem file_write_mode_zero_skips_chmod :
    (handleResource "file" "write"
      [("path", .str "~/.terminalwire/f"), ("content", .str "x"), ("mode", .num 0)] wC9).1 =
      .envelope ⟨"resource", "file", "success", .num 1⟩ ∧
    fsFind ((handleResource "file" "write"
      [("path", .str "~/.terminalwire/f"), ("content", .str "x"), ("mode", .num 0)] wC9).2.files)
      "/h/.terminalwire/f" = some (FileEntry.mk "x" 420) ∧
    (420 : Nat) ≠ 0 := by
  exact ⟨rfl, rfl, by decide⟩

/-- Claim C9 witness: on the same world, mode 0o600 (384, truthy) is applied:
after the write the file carries exactly mode 384. -/
theorem file_write_mode_semantics_witness :
    validatePath wC9.ctx "~/.terminalwire/f" = .ok "/h/.terminalwire/f" ∧
    wC9.dirs.contains "/h/.terminalwire/f" = false ∧
    ((384 : Nat) ≠ 0) ∧
    (∃ w1,
      handleResource "file" "write"
        [("path", .str "~/.terminalwire/f"), ("content", .str "x"),
          ("mode", .num ((384 : Nat) : Int))] wC9 =
        (.envelope ⟨"resource", "file", "success", .num 1⟩, w1) ∧
      fsFind w1.files "/h/.terminalwire/f" = some (FileEntry.mk "x" 384)) := by
  refine ⟨rfl, rfl, by decide, ?_⟩
  exact (file_write_mode_semantics wC9 "~/.terminalwire/f" "x" "/h/.terminalwire/f" 384
    rfl rfl).1 (by decide)

/-- Claim C5: an inbound frame larger than 1 MiB is discarded with only a
diagnostic log by both `onmessage` variants: `onMessage` is never invoked for
that frame, the socket is never closed, and no exception escapes; the
handlers being pure and per-frame, the treatment of later frames is
unaffected. -/
theorem oversized_frame_discarded {α : Type} (decode : List Nat → Except Thrown α)
    (buffer : List Nat) (debug : Bool) (h : buffer.length > MAX_MESSAGE_SIZE) :
    (onmessagePlain decode buffer = .ok [.logged "Message too large, ignoring"] ∧
      (∀ m : α, TAction.delivered m ∉ ([.logged "Message too large, ignoring"] : List (TAction α))) ∧
      TAction.closedConn ∉ ([.logged "Message too large, ignoring"] : List (TAction α))) ∧
    (∃ acts, onmessageDebug debug decode buffer = .ok acts ∧
      (∀ m : α, TAction.delivered m ∉ acts) ∧ TAction.closedConn ∉ acts) := by
  constructor
  · refine ⟨?_, ?_, ?_⟩
    · unfold onmessagePlain
      rw [if_pos h]
    · intro m hm
      simp at hm
    · simp
  · unfold onmessageDebug
    rw [if_pos h]
    refine ⟨_, rfl, ?_, ?_⟩
    · intro m
      unfold debugRecvLog
      cases debug <;> simp
    · unfold debugRecvLog
      cases debug <;> simp

/-- Claim C5 witness: a frame of 1 MiB + 1 bytes is dropped with the
diagnostic, in both variants. -/
theorem oversized_frame_discarded_witness :
    (List.replicate (MAX_MESSAGE_SIZE + 1) 0).length > MAX_MESSAGE_SIZE ∧
    onmessagePlain (fun _ => Except.ok true) (List.replicate (MAX_MESSAGE_SIZE + 1) 0) =
      .ok [.logged "Message too large, ignoring"] ∧
    (∃ acts, onmessageDebug true (fun _ => Except.ok true)
        (List.replicate (MAX_MESSAGE_SIZE + 1) 0) = .ok acts ∧
      (∀ m : Bool, TAction.delivered m ∉ acts) ∧ TAction.closedConn ∉ acts) := by
  have h : (List.replicate (MAX_MESSAGE_SIZE + 1) 0).length > MAX_MESSAGE_SIZE := by
    rw [List.length_replicate]
    exact Nat.lt_succ_self _
  have hall := oversized_frame_discarded (fun _ => Except.ok true)
    (List.replicate (MAX_MESSAGE_SIZE + 1) 0) true h
  exact ⟨h, hall.1.1, hall.2⟩

/-- Claim C6 counterexample: the claim as stated fails on the plain client
variant. A one-byte frame `0xc1` (an invalid msgpack byte, well within the
cap) whose decode fails makes the handler itself fail: the decode error
propagates uncaught out of `socket.onmessage` instead of being caught and
logged. -/
theorem plain_handler_propagates_decode_error :
    ([193] : List Nat).length ≤ MAX_MESSAGE_SIZE ∧
    onmessagePlain
      (fun _ => Except.error (Thrown.errObj "Unexpected token") : List Nat → Except Thrown Bool)
      [193] = Except.error (Thrown.errObj "Unexpected token") := by
  constructor
  · decide
  · rfl

/-- Claim C6 (amended): for an in-cap frame whose bytes fail to decode, the
debug-variant handler catches the error — no `onMessage` call, no close, no
escaping exception, and a diagnostic log when `TERMINALWIRE_DEBUG=1` — while
the plain-variant handler propagates the decode error uncaught. -/
theorem decode_failure_caught_in_debug_variant {α : Type} (debug : Bool)
    (decode : List Nat → Except Thrown α) (buffer : List Nat) (e : Thrown)
    (hsz : ¬ buffer.length > MAX_MESSAGE_SIZE) (hdec : decode buffer = .error e) :
    (∃ acts, onmessageDebug debug decode buffer = .ok acts ∧
      (∀ m : α, TAction.delivered m ∉ acts) ∧ TAction.closedConn ∉ acts ∧
      (debug = true →
        TAction.logged ("[DEBUG] Error handling message: " ++ thrownDisplay e) ∈ acts)) ∧
    onmessagePlain decode buffer = .error e := by
  constructor
  · unfold onmessageDebug
    rw [if_neg hsz, hdec]
    refine ⟨_, rfl, ?_, ?_, ?_⟩
    · intro m
      unfold debugRecvLog
      cases debug <;> simp
    · unfold debugRecvLog
      cases debug <;> simp
    · intro hdb
      subst hdb
      unfold debugRecvLog
      simp
  · unfold onmessagePlain
    rw [if_neg hsz, hdec]

/-- Claim C6 amended witness: a concrete in-cap frame with a failing decode,
with debugging on. -/
theorem decode_failure_caught_in_debug_variant_witness :
    (¬ ([193] : List Nat).length > MAX_MESSAGE_SIZE) ∧
    (∃ acts, onmessageDebug true
        (fun _ => Except.error (Thrown.errObj "bad") : List Nat → Except Thrown Bool)
        [193] = .ok acts ∧
      (∀ m : Bool, TAction.delivered m ∉ acts) ∧ TAction.closedConn ∉ acts ∧
      (true = true →
        TAction.logged ("[DEBUG] Error handling message: " ++ thrownDisplay (Thrown.errObj "bad"))
          ∈ acts)) ∧
    onmessagePlain
      (fun _ => Except.error (Thrown.errObj "bad") : List Nat → Except Thrown Bool)
      [193] = Except.error (Thrown.errObj "bad") := by
  have h := decode_failure_caught_in_debug_variant true
    (fun _ => Except.error (Thrown.errObj "bad") : List Nat → Except Thrown Bool)
    [193] (Thrown.errObj "bad") (by decide) rfl
  exact ⟨by decide, h.1, h.2⟩
